import Mathlib

/-!
Shallow embedding of `src/llalbm/src/core/initializers/InletOutletInitializer.hpp`
(repository LucaGuffanti/llalbm).

The header defines four initializer policy classes, one per execution
back-end: `VelocityInitializer` (sequential), `OMPVelocityInitializer`
(OpenMP `parallel for` with `private(coordinates)`),
`STDExecVelocityInitializer` (`std::for_each` with `std::execution::par`,
capturing the scratch `coordinates` array by reference), and
`OpenACCVelocityInitializer` (the `acc` pragmas are commented out, so its
loops are plain sequential loops).  Each class holds static state: the
inlet and outlet node lists and one update function per spatial dimension
for inlets and for outlets; `attach_nodes` and `attach_update_functions`
assign (hence replace) these statics, and `update_nodes` walks the inlet
list and then the outlet list, writing, for every node and every spatial
dimension `j`, the value `fn[j](time, node)` into the velocity tensor at
the index given by the node coordinates with direction index `j` appended.

Modelling choices.  `BoundaryPoint<dim>` carries an integer coordinate
array of length `dim` (`Eigen::Index` is a signed integer), embedded as
`Fin dim → Int`.  The rank-`(dim+1)` Eigen velocity tensor is embedded as
a total map from a spatial index tuple and a direction index to a scalar;
the scalar type `V` (C++ `double`) and the time type `T` are parameters,
since `update_nodes` moves values around without arithmetic on them.  The
per-class static state is the structure `InitializerState`.  Writing one
tensor cell is `write_cell`; the inner direction loop of `update_nodes`
is `update_point`; the two node loops are left folds over the node lists.
-/

namespace llalbm

/-- Coordinate record of one inlet or outlet lattice node, after
`BoundaryPoint<dim>`: an integer coordinate tuple of length `dim`. -/
structure BoundaryPoint (dim : Nat) where
  coords : Fin dim → Int

instance (dim : Nat) : DecidableEq (BoundaryPoint dim) :=
  fun p q =>
    decidable_of_iff (p.coords = q.coords) (by cases p; cases q; simp)

/-- The rank-`(dim+1)` velocity tensor: a scalar per spatial index tuple
and direction index (the last tensor axis). -/
abbrev VelocityTensor (dim : Nat) (V : Type) : Type :=
  (Fin dim → Int) → Fin dim → V

/-- The rank-`dim` density tensor: a scalar per spatial index tuple. -/
abbrev DensityTensor (dim : Nat) (V : Type) : Type :=
  (Fin dim → Int) → V

/-- Type of one attached update function, after
`std::function<double (double, BoundaryPoint<dim>)>`. -/
abbrev UpdateFunction (dim : Nat) (T V : Type) : Type :=
  T → BoundaryPoint dim → V

/-- The static data members of one initializer policy class: the inlet
and outlet node lists and the per-dimension update function arrays. -/
structure InitializerState (dim : Nat) (T V : Type) where
  inlet_nodes : List (BoundaryPoint dim)
  outlet_nodes : List (BoundaryPoint dim)
  inlet_update_function : Fin dim → UpdateFunction dim T V
  outlet_update_function : Fin dim → UpdateFunction dim T V

/-- Overwriting one cell of the velocity tensor, the effect of
`velocity_tensor(coordinates) = val` where `coordinates` holds the
spatial tuple `c` in its first `dim` slots and `j` in slot `dim`. -/
def write_cell {dim : Nat} {V : Type} (vel : VelocityTensor dim V)
    (c : Fin dim → Int) (j : Fin dim) (v : V) : VelocityTensor dim V :=
  fun c' j' => if c' = c ∧ j' = j then v else vel c' j'

/-- The inner direction loop of `update_nodes` for one node `p`: for
`j = 0, …, dim-1` in order, set `coordinates[dim] = j`, evaluate
`fns[j](t, p)` and store the value at the cell `(p.coords, j)`. -/
def update_point {dim : Nat} {T V : Type}
    (fns : Fin dim → UpdateFunction dim T V) (t : T) (p : BoundaryPoint dim)
    (vel : VelocityTensor dim V) : VelocityTensor dim V :=
  (List.finRange dim).foldl (fun v j => write_cell v p.coords j (fns j t p)) vel

/-- `VelocityInitializer<dim>::update_nodes`: the loop over the inlet
nodes followed by the loop over the outlet nodes, each iteration running
the direction loop for its node.  Only the velocity tensor is written;
the density tensor parameter is taken by value and never read or
written, so it does not appear. -/
def update_nodes {dim : Nat} {T V : Type} (s : InitializerState dim T V)
    (t : T) (vel : VelocityTensor dim V) : VelocityTensor dim V :=
  let after_inlets :=
    s.inlet_nodes.foldl (fun v p => update_point s.inlet_update_function t p v) vel
  s.outlet_nodes.foldl (fun v p => update_point s.outlet_update_function t p v) after_inlets

/-- Caller-visible effect of one call
`update_nodes(time_step, velocity_tensor, density_tensor)` on the static
policy state (taken per class), the velocity tensor (passed by
reference) and the density tensor (passed by value, so the caller's copy
is returned unchanged; the body never touches its own copy either). -/
def update_nodes_call {dim : Nat} {T V : Type} (s : InitializerState dim T V)
    (t : T) (vel : VelocityTensor dim V) (rho : DensityTensor dim V) :
    InitializerState dim T V × VelocityTensor dim V × DensityTensor dim V :=
  (s, update_nodes s t vel, rho)

/-- `VelocityInitializer<dim>::attach_nodes`: assigns both static node
lists (vector assignment replaces the previous contents). -/
def attach_nodes {dim : Nat} {T V : Type} (s : InitializerState dim T V)
    (inlet_nodes_ outlet_nodes_ : List (BoundaryPoint dim)) :
    InitializerState dim T V :=
  { s with inlet_nodes := inlet_nodes_, outlet_nodes := outlet_nodes_ }

/-- `VelocityInitializer<dim>::attach_update_functions`: assigns both
static update-function arrays. -/
def attach_update_functions {dim : Nat} {T V : Type} (s : InitializerState dim T V)
    (inlet_update_function_ outlet_update_function_ :
      Fin dim → UpdateFunction dim T V) : InitializerState dim T V :=
  { s with inlet_update_function := inlet_update_function_,
           outlet_update_function := outlet_update_function_ }

/-- `OMPVelocityInitializer<dim>::update_nodes`: the same two node loops
as the sequential variant, under `#pragma omp parallel for` with
`private(coordinates)`.  Because every iteration works on a private
scratch array and writes only the cells keyed by its own node's
coordinates, the OpenMP loop has the same outcome as its sequential
elision, which this definition transliterates. -/
def omp_update_nodes {dim : Nat} {T V : Type} (s : InitializerState dim T V)
    (t : T) (vel : VelocityTensor dim V) : VelocityTensor dim V :=
  let after_inlets :=
    s.inlet_nodes.foldl (fun v p => update_point s.inlet_update_function t p v) vel
  s.outlet_nodes.foldl (fun v p => update_point s.outlet_update_function t p v) after_inlets

/-- `OpenACCVelocityInitializer<dim>::update_nodes`: identical body to
the sequential variant; both `#pragma acc parallel loop` lines are
commented out in the source, so the loops are plain sequential loops. -/
def openacc_update_nodes {dim : Nat} {T V : Type} (s : InitializerState dim T V)
    (t : T) (vel : VelocityTensor dim V) : VelocityTensor dim V :=
  let after_inlets :=
    s.inlet_nodes.foldl (fun v p => update_point s.inlet_update_function t p v) vel
  s.outlet_nodes.foldl (fun v p => update_point s.outlet_update_function t p v) after_inlets

/-!
Interleaving model of `STDExecVelocityInitializer<dim>::update_nodes`.

That variant runs `std::for_each(std::execution::par, …)` over the node
list with a lambda capturing by reference (`[&]`) the local
`Eigen::array<Eigen::Index, dim+1> coordinates` declared once outside
the lambda, so all parallel iterations share one scratch buffer (unlike
the OpenMP variant, which marks it `private(coordinates)`).  Each
iteration for a node `p` performs, in program order, the atomic actions
of the loop body: `coordinates[k] = p.coords[k]` for `k = 0, …, dim-1`,
then for each `j`: `coordinates[dim] = j` followed by
`velocity_tensor(coordinates) = fns[j](t, p)` (the value is computed
from thread-local data; the tensor index is read from the shared
buffer).  A schedule is a list of thread identifiers saying which
iteration performs its next pending action; running a schedule yields
the deterministic outcome of that interleaving.
-/

/-- One atomic action of the `std::for_each` loop body on shared state. -/
inductive ScratchAction (dim : Nat) where
  | set_coord (k : Fin dim)
  | set_dir (j : Fin dim)
  | write_vel (j : Fin dim)
deriving DecidableEq

/-- The shared state visible to all `std::execution::par` iterations:
the single by-reference-captured `coordinates` scratch buffer (spatial
slots `0, …, dim-1` and direction slot `dim`) and the velocity tensor. -/
structure SharedState (dim : Nat) (V : Type) where
  scratch_coords : Fin dim → Int
  scratch_dir : Fin dim
  vel : VelocityTensor dim V

/-- The action list one iteration executes, in program order. -/
def iteration_actions (dim : Nat) : List (ScratchAction dim) :=
  (List.finRange dim).map ScratchAction.set_coord
    ++ (List.finRange dim).flatMap
        (fun j => [ScratchAction.set_dir j, ScratchAction.write_vel j])

/-- Effect of one atomic action executed by the iteration for node `p`. -/
def apply_scratch_action {dim : Nat} {T V : Type}
    (fns : Fin dim → UpdateFunction dim T V) (t : T) (p : BoundaryPoint dim)
    (a : ScratchAction dim) (st : SharedState dim V) : SharedState dim V :=
  match a with
  | .set_coord k =>
      { st with scratch_coords := Function.update st.scratch_coords k (p.coords k) }
  | .set_dir j => { st with scratch_dir := j }
  | .write_vel j =>
      { st with vel := write_cell st.vel st.scratch_coords st.scratch_dir (fns j t p) }

/-- One pending iteration per node, each holding its node and its
remaining actions. -/
abbrev ThreadPool (dim : Nat) : Type := List (BoundaryPoint dim × List (ScratchAction dim))

/-- The `std::for_each` spawns one iteration per listed node. -/
def spawn_iterations {dim : Nat} (nodes : List (BoundaryPoint dim)) : ThreadPool dim :=
  nodes.map (fun p => (p, iteration_actions dim))

/-- The iteration named by `tid` performs its next pending action, if
it exists; a `tid` naming no iteration or a finished one is a stutter. -/
def interleave_step {dim : Nat} {T V : Type}
    (fns : Fin dim → UpdateFunction dim T V) (t : T) (pool : ThreadPool dim)
    (st : SharedState dim V) (tid : Nat) : ThreadPool dim × SharedState dim V :=
  match pool.get? tid with
  | some (p, a :: rest) => (pool.set tid (p, rest), apply_scratch_action fns t p a st)
  | _ => (pool, st)

/-- Running a whole schedule from a pool and a shared state. -/
def run_schedule {dim : Nat} {T V : Type}
    (fns : Fin dim → UpdateFunction dim T V) (t : T) (sched : List Nat)
    (pool : ThreadPool dim) (st : SharedState dim V) :
    ThreadPool dim × SharedState dim V :=
  sched.foldl (fun ps tid => interleave_step fns t ps.1 ps.2 tid) (pool, st)

/-- Outcome of the inlet `std::for_each` of
`STDExecVelocityInitializer<dim>::update_nodes` under a given
interleaving of its parallel iterations. -/
def stdexec_inlet_for_each {dim : Nat} {T V : Type} (s : InitializerState dim T V)
    (t : T) (sched : List Nat) (init : SharedState dim V) : SharedState dim V :=
  (run_schedule s.inlet_update_function t sched (spawn_iterations s.inlet_nodes) init).2

/-- The set of velocity-tensor cells the direction loop writes for one
node: the node's own coordinates paired with each direction index. -/
def written_cells {dim : Nat} (p : BoundaryPoint dim) :
    Finset ((Fin dim → Int) × Fin dim) :=
  Finset.univ.image (fun j => (p.coords, j))

/-- The rational velocity value 0.2 of the spec's two-inlet scenario,
given by an explicit fraction so that the kernel can evaluate it. -/
def fifth : ℚ := ⟨1, 5, by norm_num, by norm_num⟩

/-!
Concrete policy configurations used to evaluate the development on
explicit inputs.
-/

/-- A one-dimensional boundary point at coordinate 3. -/
def ptAt3 : BoundaryPoint 1 := ⟨fun _ => 3⟩

/-- A one-dimensional boundary point at coordinate 4. -/
def ptAt4 : BoundaryPoint 1 := ⟨fun _ => 4⟩

/-- A one-dimensional boundary point at coordinate 0. -/
def ptAt0 : BoundaryPoint 1 := ⟨fun _ => 0⟩

/-- One inlet at 3 and one outlet at 4, with constant update functions
returning 5 at inlets and 6 at outlets. -/
def inletOutletState : InitializerState 1 ℚ ℚ :=
  { inlet_nodes := [ptAt3], outlet_nodes := [ptAt4],
    inlet_update_function := fun _ _ _ => 5,
    outlet_update_function := fun _ _ _ => 6 }

/-- The same coordinate 0 registered both as inlet and as outlet, with
the inlet functions returning 1 and the outlet functions returning 2. -/
def overlapState : InitializerState 1 ℚ ℚ :=
  { inlet_nodes := [ptAt0], outlet_nodes := [ptAt0],
    inlet_update_function := fun _ _ _ => 1,
    outlet_update_function := fun _ _ _ => 2 }

/-- First inlet point of the spec's two-inlet scenario. -/
def inletA : BoundaryPoint 2 := ⟨![0, 1]⟩

/-- Second inlet point of the spec's two-inlet scenario. -/
def inletB : BoundaryPoint 2 := ⟨![0, 2]⟩

/-- The constant update functions of the spec's two-inlet scenario,
returning velocity component 0.2 for dimension 0 and 0.0 for
dimension 1. -/
def constVelFns : Fin 2 → UpdateFunction 2 ℚ ℚ :=
  fun j _ _ => if j = 0 then fifth else 0

/-- Two registered inlet points, no outlets, constant functions
returning the velocity (0.2, 0.0). -/
def twoInletState : InitializerState 2 ℚ ℚ :=
  { inlet_nodes := [inletA, inletB], outlet_nodes := [],
    inlet_update_function := constVelFns,
    outlet_update_function := fun _ _ _ => 0 }

/-- A registration holding inlets at 3 and 4, later to be replaced. -/
def oldAttachState : InitializerState 1 ℚ ℚ :=
  { inlet_nodes := [ptAt3, ptAt4], outlet_nodes := [],
    inlet_update_function := fun _ _ _ => 5,
    outlet_update_function := fun _ _ _ => 6 }

/-- A registration with no inlet and no outlet nodes at all. -/
def emptyNodesState : InitializerState 1 ℚ ℚ :=
  { inlet_nodes := [], outlet_nodes := [],
    inlet_update_function := fun _ _ _ => 5,
    outlet_update_function := fun _ _ _ => 6 }

/-- Two inlet nodes at coordinates 5 and 7 whose update function
returns the node's own coordinate, distinguishing the two writes. -/
def raceCfg : InitializerState 1 Int Int :=
  { inlet_nodes := [⟨fun _ => 5⟩, ⟨fun _ => 7⟩], outlet_nodes := [],
    inlet_update_function := fun _ _ pt => pt.coords 0,
    outlet_update_function := fun _ _ _ => 0 }

/-- Zeroed shared state: scratch buffer and velocity tensor all zero. -/
def raceState0 : SharedState 1 Int :=
  { scratch_coords := fun _ => 0, scratch_dir := 0, vel := fun _ _ => 0 }

/-- A boundary point is determined by its coordinates. -/
theorem BoundaryPoint.ext_coords {dim : Nat} {p q : BoundaryPoint dim}
    (h : p.coords = q.coords) : p = q := by
  cases p; cases q; simpa using h

/-- Pointwise description of `write_cell`. -/
theorem write_cell_apply {dim : Nat} {V : Type} (vel : VelocityTensor dim V)
    (c : Fin dim → Int) (j : Fin dim) (v : V) (c' : Fin dim → Int) (j' : Fin dim) :
    write_cell vel c j v c' j' = if c' = c ∧ j' = j then v else vel c' j' := rfl

/-- Pointwise description of a left fold of `write_cell` over a list of
direction indices at a fixed spatial tuple `c`. -/
theorem foldl_write_cell_apply {dim : Nat} {V : Type} (c : Fin dim → Int)
    (f : Fin dim → V) (js : List (Fin dim)) (vel : VelocityTensor dim V)
    (c' : Fin dim → Int) (j' : Fin dim) :
    js.foldl (fun v j => write_cell v c j (f j)) vel c' j'
      = if c' = c ∧ j' ∈ js then f j' else vel c' j' := by
  induction js generalizing vel with
  | nil => simp
  | cons a rest ih =>
    rw [List.foldl_cons, ih]
    by_cases hc : c' = c
    · subst hc
      by_cases hr : j' ∈ rest
      · simp [hr]
      · by_cases ha : j' = a
        · subst ha
          simp [hr, write_cell]
        · simp [hr, ha, write_cell]
    · simp [hc, write_cell]

/-- Pointwise description of `update_point`: the direction loop for a
node `p` rewrites every cell at spatial tuple `p.coords` with the value
of the matching update function, and leaves every other cell alone. -/
theorem update_point_apply {dim : Nat} {T V : Type}
    (fns : Fin dim → UpdateFunction dim T V) (t : T) (p : BoundaryPoint dim)
    (vel : VelocityTensor dim V) (c' : Fin dim → Int) (j' : Fin dim) :
    update_point fns t p vel c' j'
      = if c' = p.coords then fns j' t p else vel c' j' := by
  rw [update_point, foldl_write_cell_apply]
  simp [List.mem_finRange]

/-- A node loop leaves every cell whose spatial tuple coincides with no
listed node's coordinates unchanged. -/
theorem foldl_update_point_apply_notmem {dim : Nat} {T V : Type}
    (fns : Fin dim → UpdateFunction dim T V) (t : T)
    (l : List (BoundaryPoint dim)) (vel : VelocityTensor dim V)
    (c : Fin dim → Int) (j : Fin dim) (h : ∀ p ∈ l, p.coords ≠ c) :
    l.foldl (fun v p => update_point fns t p v) vel c j = vel c j := by
  induction l generalizing vel with
  | nil => rfl
  | cons a rest ih =>
    rw [List.foldl_cons, ih _ (fun p hp => h p (List.mem_cons_of_mem a hp)),
      update_point_apply]
    have ha : a.coords ≠ c := h a (List.mem_cons_self a rest)
    exact if_neg (fun hc => ha hc.symm)

/-- After a node loop, every cell at the coordinates of a listed node
holds the matching update function's value for that node.  A later
listed node with the same coordinates is the same `BoundaryPoint`, so
its write stores the same value again. -/
theorem foldl_update_point_apply_mem {dim : Nat} {T V : Type}
    (fns : Fin dim → UpdateFunction dim T V) (t : T)
    (l : List (BoundaryPoint dim)) (vel : VelocityTensor dim V)
    (p : BoundaryPoint dim) (j : Fin dim) (hp : p ∈ l) :
    l.foldl (fun v p => update_point fns t p v) vel p.coords j = fns j t p := by
  induction l generalizing vel with
  | nil => cases hp
  | cons a rest ih =>
    rw [List.foldl_cons]
    by_cases hr : p ∈ rest
    · exact ih _ hr
    · have hpa : p = a := by
        rcases List.mem_cons.mp hp with hpa | hpr
        · exact hpa
        · exact absurd hpr hr
      subst hpa
      have hrest : ∀ q ∈ rest, q.coords ≠ p.coords := by
        intro q hq hqc
        exact hr (BoundaryPoint.ext_coords hqc ▸ hq)
      rw [foldl_update_point_apply_notmem _ _ _ _ _ _ hrest, update_point_apply]
      simp

/-- Pointwise frame property of `update_nodes`: a cell whose spatial
tuple coincides with no registered inlet or outlet node is unchanged. -/
theorem update_nodes_apply_notmem {dim : Nat} {T V : Type}
    (s : InitializerState dim T V) (t : T) (vel : VelocityTensor dim V)
    (c : Fin dim → Int) (j : Fin dim)
    (h : ∀ p ∈ s.inlet_nodes ++ s.outlet_nodes, p.coords ≠ c) :
    update_nodes s t vel c j = vel c j := by
  rw [update_nodes]
  rw [foldl_update_point_apply_notmem _ _ _ _ _ _
    (fun p hp => h p (List.mem_append_right _ hp))]
  exact foldl_update_point_apply_notmem _ _ _ _ _ _
    (fun p hp => h p (List.mem_append_left _ hp))

/-- After `update_nodes`, every cell at a registered outlet node holds
the matching outlet update function's value: the outlet loop runs last
and its write is never overwritten. -/
theorem update_nodes_apply_outlet {dim : Nat} {T V : Type}
    (s : InitializerState dim T V) (t : T) (vel : VelocityTensor dim V)
    (q : BoundaryPoint dim) (j : Fin dim) (hq : q ∈ s.outlet_nodes) :
    update_nodes s t vel q.coords j = s.outlet_update_function j t q := by
  rw [update_nodes]
  exact foldl_update_point_apply_mem _ _ _ _ _ _ hq

/-- After `update_nodes`, a cell at a registered inlet node whose
coordinates occur in no outlet node holds the matching inlet update
function's value. -/
theorem update_nodes_apply_inlet {dim : Nat} {T V : Type}
    (s : InitializerState dim T V) (t : T) (vel : VelocityTensor dim V)
    (p : BoundaryPoint dim) (j : Fin dim) (hp : p ∈ s.inlet_nodes)
    (hout : ∀ q ∈ s.outlet_nodes, q.coords ≠ p.coords) :
    update_nodes s t vel p.coords j = s.inlet_update_function j t p := by
  rw [update_nodes]
  rw [foldl_update_point_apply_notmem _ _ _ _ _ _ hout]
  exact foldl_update_point_apply_mem _ _ _ _ _ _ hp

/-- Claim C1, counterexample to the unconditional statement: with
coordinate 0 registered both as inlet (functions returning 1) and as
outlet (functions returning 2), after `update_nodes` the velocity cell
at the registered inlet point does not hold the value the inlet update
function produced for it. -/
theorem update_nodes_inlet_value_overwritten_cex :
    ptAt0 ∈ overlapState.inlet_nodes
    ∧ update_nodes overlapState 0 (fun _ _ => 0) ptAt0.coords 0
        ≠ overlapState.inlet_update_function 0 0 ptAt0 := by
  decide

/-- Claim C1, amended: after `update_nodes`, every velocity cell at a
registered outlet point holds the value of the matching outlet update
function at (time, point); every cell at a registered inlet point whose
coordinates do not also occur among the registered outlet points holds
the value of the matching inlet update function.  The inlet part cannot
be unconditional: the outlet loop runs after the inlet loop, so at a
coordinate registered in both lists the outlet write wins. -/
theorem update_nodes_stores_function_values {dim : Nat} {T V : Type}
    (s : InitializerState dim T V) (t : T) (vel : VelocityTensor dim V) :
    (∀ q ∈ s.outlet_nodes, ∀ j : Fin dim,
        update_nodes s t vel q.coords j = s.outlet_update_function j t q)
    ∧ (∀ p ∈ s.inlet_nodes, (∀ q ∈ s.outlet_nodes, q.coords ≠ p.coords) →
        ∀ j : Fin dim,
          update_nodes s t vel p.coords j = s.inlet_update_function j t p) :=
  ⟨fun q hq j => update_nodes_apply_outlet s t vel q j hq,
   fun p hp hout j => update_nodes_apply_inlet s t vel p j hp hout⟩

/-- Witness for C1 at a concrete configuration: one inlet at 3 with
functions returning 5 and one outlet at 4 with functions returning 6. -/
theorem update_nodes_stores_function_values_witness :
    update_nodes inletOutletState 0 (fun _ _ => 0) ptAt4.coords 0 = 6
    ∧ update_nodes inletOutletState 0 (fun _ _ => 0) ptAt3.coords 0 = 5 :=
  ⟨(update_nodes_stores_function_values inletOutletState 0 (fun _ _ => 0)).1
      ptAt4 (by decide) 0,
   (update_nodes_stores_function_values inletOutletState 0 (fun _ _ => 0)).2
      ptAt3 (by decide) (by decide) 0⟩

/-- Claim C2: under the fully sequential interleaving the STDExec inlet
`for_each` reproduces the sequential variant's velocity field, but
under the interleaving in which the second iteration overwrites the
shared by-reference-captured `coordinates` scratch buffer between the
first iteration's buffer fill and its tensor write, the raced write of
the first iteration lands in the second node's cell, the first node's
cell is never written, and the resulting field differs from the
sequential variant's at the first node.  So the STDExec variant is not
interchangeable with the other three. -/
theorem stdexec_shared_scratch_race :
    ((stdexec_inlet_for_each raceCfg 0 [0, 0, 0, 1, 1, 1] raceState0).vel
        (fun _ => 5) 0
      = update_nodes raceCfg 0 raceState0.vel (fun _ => 5) 0)
    ∧ ((stdexec_inlet_for_each raceCfg 0 [0, 1, 0, 0, 1, 1] raceState0).vel
        (fun _ => 5) 0
      ≠ update_nodes raceCfg 0 raceState0.vel (fun _ => 5) 0) := by
  decide

/-- Claim C3: `update_nodes` leaves every velocity cell whose spatial
tuple matches no registered inlet or outlet node unchanged; and in the
concrete two-inlet scenario at time 0 with constant functions returning
(0.2, 0.0), the resulting field holds exactly (0.2, 0.0) at the two
inlet points and the old value everywhere else. -/
theorem update_nodes_frame_and_constant_example :
    (∀ (dim : Nat) (T V : Type) (s : InitializerState dim T V) (t : T)
        (vel : VelocityTensor dim V) (c : Fin dim → Int) (j : Fin dim),
        (∀ p ∈ s.inlet_nodes ++ s.outlet_nodes, p.coords ≠ c) →
        update_nodes s t vel c j = vel c j)
    ∧ (∀ (vel : VelocityTensor 2 ℚ) (c : Fin 2 → Int) (j : Fin 2),
        update_nodes twoInletState 0 vel c j
          = if c = inletA.coords ∨ c = inletB.coords
            then (if j = 0 then fifth else 0) else vel c j) := by
  constructor
  · intro dim T V s t vel c j h
    exact update_nodes_apply_notmem s t vel c j h
  · intro vel c j
    by_cases hA : c = inletA.coords
    · subst hA
      rw [update_nodes_apply_inlet twoInletState 0 vel inletA j (by decide) (by decide),
        if_pos (Or.inl rfl)]
      rfl
    · by_cases hB : c = inletB.coords
      · subst hB
        rw [update_nodes_apply_inlet twoInletState 0 vel inletB j (by decide) (by decide),
          if_pos (Or.inr rfl)]
        rfl
      · have h : ∀ p ∈ twoInletState.inlet_nodes ++ twoInletState.outlet_nodes,
            p.coords ≠ c := by
          intro p hp
          simp only [twoInletState, List.append_nil, List.mem_cons,
            List.not_mem_nil, or_false] at hp
          rcases hp with rfl | rfl
          · exact fun hc => hA hc.symm
          · exact fun hc => hB hc.symm
        rw [update_nodes_apply_notmem twoInletState 0 vel c j h,
          if_neg (not_or.mpr ⟨hA, hB⟩)]

/-- Witness for C3: in the two-inlet scenario, the cell at the
untouched coordinate (7, 7) keeps its starting value. -/
theorem update_nodes_frame_and_constant_example_witness :
    update_nodes twoInletState 0 (fun _ _ => 9) (fun _ => 7) 0 = 9 :=
  update_nodes_frame_and_constant_example.1 2 ℚ ℚ twoInletState 0
    (fun _ _ => 9) (fun _ => 7) 0 (by decide)

/-- Claim C4: `attach_nodes` installs exactly the newly passed inlet
and outlet lists, discarding any previous registration, and a
subsequent `update_nodes` leaves every cell untouched whose coordinates
match no node of the new lists, even coordinates that were registered
before. -/
theorem attach_nodes_replaces {dim : Nat} {T V : Type}
    (s : InitializerState dim T V) (ins outs : List (BoundaryPoint dim)) :
    (attach_nodes s ins outs).inlet_nodes = ins
    ∧ (attach_nodes s ins outs).outlet_nodes = outs
    ∧ ∀ (t : T) (vel : VelocityTensor dim V) (c : Fin dim → Int) (j : Fin dim),
        (∀ p ∈ ins ++ outs, p.coords ≠ c) →
        update_nodes (attach_nodes s ins outs) t vel c j = vel c j :=
  ⟨rfl, rfl, fun t vel c j h => update_nodes_apply_notmem _ t vel c j h⟩

/-- Witness for C4: re-attaching the smaller inlet list containing only
the node at 4 discards the node at 3 of the old registration, so a
subsequent `update_nodes` leaves the cell at 3 untouched. -/
theorem attach_nodes_replaces_witness :
    update_nodes (attach_nodes oldAttachState [ptAt4] []) 0
      (fun _ _ => 8) ptAt3.coords 0 = 8 :=
  (attach_nodes_replaces oldAttachState [ptAt4] []).2.2 0
    (fun _ _ => 8) ptAt3.coords 0 (by decide)

/-- Claim C5: with no registered inlet and no registered outlet nodes,
`update_nodes` returns the velocity field unchanged, whatever the
attached update functions are (both loops run zero iterations, so no
update function is ever evaluated). -/
theorem update_nodes_noop_when_empty {dim : Nat} {T V : Type}
    (s : InitializerState dim T V) (t : T) (vel : VelocityTensor dim V)
    (hin : s.inlet_nodes = []) (hout : s.outlet_nodes = []) :
    update_nodes s t vel = vel := by
  simp only [update_nodes, hin, hout, List.foldl_nil]

/-- Witness for C5 at a concrete node-free configuration. -/
theorem update_nodes_noop_when_empty_witness :
    update_nodes emptyNodesState 0 (fun _ _ => 4) = (fun _ _ => 4) :=
  update_nodes_noop_when_empty emptyNodesState 0 (fun _ _ => 4) rfl rfl

/-- Claim C6: the cells the direction loop writes for a node are its
own coordinates paired with each direction index; two points with
distinct coordinates have disjoint write sets, and the loop for one
node leaves every cell outside its write set unchanged. -/
theorem distinct_nodes_write_disjoint_cells (dim : Nat) (T V : Type) :
    (∀ p q : BoundaryPoint dim, p.coords ≠ q.coords →
        Disjoint (written_cells p) (written_cells q))
    ∧ (∀ (fns : Fin dim → UpdateFunction dim T V) (t : T) (p : BoundaryPoint dim)
        (vel : VelocityTensor dim V) (c : Fin dim → Int) (j : Fin dim),
        (c, j) ∉ written_cells p → update_point fns t p vel c j = vel c j) := by
  constructor
  · intro p q hpq
    rw [Finset.disjoint_left]
    intro a hap haq
    rw [written_cells, Finset.mem_image] at hap haq
    rcases hap with ⟨jp, _, hjp⟩
    rcases haq with ⟨jq, _, hjq⟩
    exact hpq (congrArg Prod.fst (hjp.trans hjq.symm))
  · intro fns t p vel c j hnot
    rw [update_point_apply]
    refine if_neg (fun hc => hnot ?_)
    subst hc
    exact Finset.mem_image.mpr ⟨j, Finset.mem_univ j, rfl⟩

/-- Witness for C6: the points at 3 and at 4 have disjoint write sets,
and the direction loop for the point at 3 leaves a cell at 4 alone. -/
theorem distinct_nodes_write_disjoint_cells_witness :
    Disjoint (written_cells ptAt3) (written_cells ptAt4)
    ∧ update_point (fun _ _ _ => (5 : ℚ)) 0 ptAt3 (fun _ _ => 9)
        (fun _ => 4) 0 = 9 :=
  ⟨(distinct_nodes_write_disjoint_cells 1 ℚ ℚ).1 ptAt3 ptAt4 (by decide),
   (distinct_nodes_write_disjoint_cells 1 ℚ ℚ).2 (fun _ _ _ => 5) 0 ptAt3
      (fun _ _ => 9) (fun _ => 4) 0 (by decide)⟩

/-- Claim C7: a call to `update_nodes` leaves the whole registered
policy state as the last attach calls left it: the inlet node list, the
outlet node list, and both update-function arrays are unchanged. -/
theorem update_nodes_preserves_policy_state {dim : Nat} {T V : Type}
    (s : InitializerState dim T V) (t : T) (vel : VelocityTensor dim V)
    (rho : DensityTensor dim V) :
    (update_nodes_call s t vel rho).1.inlet_nodes = s.inlet_nodes
    ∧ (update_nodes_call s t vel rho).1.outlet_nodes = s.outlet_nodes
    ∧ (update_nodes_call s t vel rho).1.inlet_update_function
        = s.inlet_update_function
    ∧ (update_nodes_call s t vel rho).1.outlet_update_function
        = s.outlet_update_function :=
  ⟨rfl, rfl, rfl, rfl⟩

/-- Claim C8: the density tensor is passed to `update_nodes` by value
and its copy is never written, so the caller-visible density field
after the call is the density field before the call. -/
theorem update_nodes_preserves_density {dim : Nat} {T V : Type}
    (s : InitializerState dim T V) (t : T) (vel : VelocityTensor dim V)
    (rho : DensityTensor dim V) :
    (update_nodes_call s t vel rho).2.2 = rho := rfl

/-- Claim C9: when the same coordinates are registered both as an inlet
and as an outlet point, the cells at those coordinates hold the outlet
update functions' values after `update_nodes`, because the outlet loop
runs after the inlet loop and the later write wins. -/
theorem overlapping_point_outlet_wins {dim : Nat} {T V : Type}
    (s : InitializerState dim T V) (t : T) (vel : VelocityTensor dim V)
    (p q : BoundaryPoint dim) (j : Fin dim)
    (hp : p ∈ s.inlet_nodes) (hq : q ∈ s.outlet_nodes)
    (hc : q.coords = p.coords) :
    update_nodes s t vel p.coords j = s.outlet_update_function j t q := by
  rw [← hc]
  exact update_nodes_apply_outlet s t vel q j hq

/-- Witness for C9 at the overlap configuration: inlet functions return
1, outlet functions return 2, and the cell holds 2 after the call. -/
theorem overlapping_point_outlet_wins_witness :
    update_nodes overlapState 0 (fun _ _ => 0) ptAt0.coords 0 = 2 :=
  overlapping_point_outlet_wins overlapState 0 (fun _ _ => 0) ptAt0 ptAt0 0
    (by decide) (by decide) rfl

/-- Claim C10: `update_nodes` is deterministic: equal registered
states, equal times and equal starting velocity fields give equal
resulting velocity fields. -/
theorem update_nodes_deterministic {dim : Nat} {T V : Type}
    (s1 s2 : InitializerState dim T V) (t1 t2 : T)
    (v1 v2 : VelocityTensor dim V)
    (hs : s1 = s2) (ht : t1 = t2) (hv : v1 = v2) :
    update_nodes s1 t1 v1 = update_nodes s2 t2 v2 := by
  rw [hs, ht, hv]

/-- Witness for C10 at a concrete configuration. -/
theorem update_nodes_deterministic_witness :
    update_nodes inletOutletState 0 (fun _ _ => 0)
      = update_nodes inletOutletState 0 (fun _ _ => 0) :=
  update_nodes_deterministic inletOutletState inletOutletState 0 0
    (fun _ _ => 0) (fun _ _ => 0) rfl rfl rfl

/-- The OpenMP variant's loop bodies are the sequential variant's loop
bodies, so its denotation coincides with the sequential one. -/
theorem omp_update_nodes_eq {dim : Nat} {T V : Type}
    (s : InitializerState dim T V) (t : T) (vel : VelocityTensor dim V) :
    omp_update_nodes s t vel = update_nodes s t vel := rfl

/-- The OpenACC variant's loops are plain sequential loops (the `acc`
pragmas are commented out), so its denotation coincides with the
sequential one. -/
theorem openacc_update_nodes_eq {dim : Nat} {T V : Type}
    (s : InitializerState dim T V) (t : T) (vel : VelocityTensor dim V) :
    openacc_update_nodes s t vel = update_nodes s t vel := rfl

end llalbm
